import Mathlib

/-!
Verification of the real-time event distribution subsystem of the marlabs
repository: the WebSocket topic registry with its broadcast channel
(app/api/v1/websockets.py), the SSE global subscriber pool
(app/services/notification_service.py, app/api/v1/notifications.py), and the
authentication gate in front of both (app/api/deps.py and the token check in
the WebSocket endpoint).

Shallow embedding conventions:
- a WebSocket connection or an asyncio queue handle is identified by a Nat;
- the Python dict mapping blog_id to a set of connections becomes an
  association list from Nat to a duplicate-free list of Nat;
- the contents of the per-subscriber asyncio queues are a function from the
  queue handle to the list of events it holds, in FIFO order (put appends at
  the end, get takes the head);
- whether an individual send_json or queue.put raises is abstracted by a
  boolean oracle passed to the operation;
- a Python exception escaping an operation is made explicit in the returned
  result (a raised flag or an outcome constructor).
-/

/-! ## Association-list primitives for the topic registry -/

/-- Lookup of a topic key in the registry association list
(Python: `blog_id in self.active_connections` / indexing). -/
def lookupTopic : List (Nat × List Nat) → Nat → Option (List Nat)
  | [], _ => none
  | (k, v) :: rest, b => if k = b then some v else lookupTopic rest b

/-- Overwrite the member list stored under key `b`
(Python: `self.active_connections[blog_id] = ...` on an existing key). -/
def setEntry : List (Nat × List Nat) → Nat → List Nat → List (Nat × List Nat)
  | [], _, _ => []
  | (k, w) :: rest, b, v =>
    if k = b then (b, v) :: setEntry rest b v else (k, w) :: setEntry rest b v

/-- Delete the entry stored under key `b`
(Python: `del self.active_connections[blog_id]`). -/
def delEntry : List (Nat × List Nat) → Nat → List (Nat × List Nat)
  | [], _ => []
  | (k, w) :: rest, b =>
    if k = b then delEntry rest b else (k, w) :: delEntry rest b

/-- Remove every occurrence of `x` from a member list
(Python set `.discard(x)` on a set modelled as a list). -/
def discardElem (l : List Nat) (x : Nat) : List Nat :=
  l.filter (fun c => c != x)

/-- Add `x` to a member list unless already present (Python set `.add(x)`). -/
def addElem (l : List Nat) (x : Nat) : List Nat :=
  if x ∈ l then l else l ++ [x]

/-! ## ConnectionManager (websockets.py lines 20-67) -/

/-- The per-topic connection registry: `blog_id -> set of WebSocket
connections`, embedded as an association list. -/
structure ConnectionManager where
  active_connections : List (Nat × List Nat)
deriving DecidableEq

/-- `ConnectionManager.connect`: accept and register a WebSocket connection.
Creates the topic entry when absent, then adds the connection to the set. -/
def ConnectionManager.connect (m : ConnectionManager) (ws blog_id : Nat) :
    ConnectionManager :=
  let base :=
    if (lookupTopic m.active_connections blog_id).isSome then
      m.active_connections
    else
      m.active_connections ++ [(blog_id, [])]
  let members := (lookupTopic base blog_id).getD []
  ⟨setEntry base blog_id (addElem members ws)⟩

/-- `ConnectionManager.disconnect`: remove a WebSocket connection; when the
member set becomes empty the topic entry itself is deleted. -/
def ConnectionManager.disconnect (m : ConnectionManager) (ws blog_id : Nat) :
    ConnectionManager :=
  match lookupTopic m.active_connections blog_id with
  | none => m
  | some members =>
    let members' := discardElem members ws
    if members' = [] then ⟨delEntry m.active_connections blog_id⟩
    else ⟨setEntry m.active_connections blog_id members'⟩

/-- Result of one `broadcast` call: the registry afterwards, the connections
that received the message, and whether the call escaped with an exception. -/
structure BroadcastResult where
  state : ConnectionManager
  delivered : List Nat
  raised : Bool
deriving DecidableEq

/-- `ConnectionManager.broadcast`: send the message to every connection of the
topic; a send failure (per the `sendOk` oracle) marks the connection dead and
it is disconnected after the loop.  The final debug log line evaluates
`len(self.active_connections[blog_id])`, which raises `KeyError` when the
pruning removed the last member and with it the topic entry; the `raised` flag
records this. -/
def ConnectionManager.broadcast (m : ConnectionManager) (sendOk : Nat → Bool)
    (blog_id : Nat) : BroadcastResult :=
  match lookupTopic m.active_connections blog_id with
  | none => ⟨m, [], false⟩
  | some members =>
    let delivered := members.filter sendOk
    let dead := members.filter (fun c => ¬ sendOk c)
    let m' := dead.foldl (fun s c => s.disconnect c blog_id) m
    ⟨m', delivered, (lookupTopic m'.active_connections blog_id).isNone⟩

/-- Registry well-formedness: no topic entry holds an empty member set
(the cleanup invariant of the spec). -/
def WF (m : ConnectionManager) : Prop :=
  ∀ p ∈ m.active_connections, p.2 ≠ []

instance (m : ConnectionManager) : Decidable (WF m) := by
  unfold WF
  infer_instance

/-- The registry is a Python dict, so its keys never repeat. -/
def KeysNodup (m : ConnectionManager) : Prop :=
  (m.active_connections.map Prod.fst).Nodup

instance (m : ConnectionManager) : Decidable (KeysNodup m) := by
  unfold KeysNodup
  infer_instance

/-- A join (`connect`) or leave (`disconnect`) step on the topic registry. -/
inductive RegistryOp where
  | join (ws blog_id : Nat)
  | leave (ws blog_id : Nat)
deriving DecidableEq

/-- Run one registry operation. -/
def applyOp (m : ConnectionManager) : RegistryOp → ConnectionManager
  | .join ws b => m.connect ws b
  | .leave ws b => m.disconnect ws b

/-- Run a sequence of join/leave operations. -/
def applyOps (m : ConnectionManager) (ops : List RegistryOp) :
    ConnectionManager :=
  ops.foldl applyOp m

/-! ## WebSocket endpoint websocket_blog_comments (websockets.py 73-167) -/

/-- Outcome of `decode_token(token)` followed by `int(payload.get("sub"))`:
either the decode raises `JWTError`, or it yields a payload whose sub claim
converts to a Nat (`none` when the claim is missing or non-numeric, in which
case `int(...)` raises a non-JWTError exception). -/
inductive DecodeResult where
  | jwtError
  | payload (sub : Option Nat)
deriving DecidableEq

/-- A decode result that lets the endpoint proceed: a payload with a numeric,
non-zero sub claim (`if not user_id` rejects 0). -/
def DecodeResult.valid : DecodeResult → Prop
  | .payload (some uid) => uid ≠ 0
  | _ => False

instance (d : DecodeResult) : Decidable d.valid := by
  cases d with
  | jwtError => exact isFalse (fun h => h)
  | payload s =>
    cases s with
    | none => exact isFalse (fun h => h)
    | some uid =>
      simp only [DecodeResult.valid]
      infer_instance

/-- How the authentication phase of the WebSocket endpoint ends. -/
inductive WsAuthOutcome where
  | closedInvalid     -- websocket.close(code=1008) then return
  | raisedBeforeConnect  -- int(payload.get("sub")) raised; connect not reached
  | connected (uid : Nat)  -- manager.connect(websocket, blog_id) ran
deriving DecidableEq

/-- Lines 107-121 of websockets.py: authenticate, then register.  Only a
successfully decoded token with a truthy user id reaches `manager.connect`;
the endpoint never touches the SSE subscriber pool at all. -/
def websocket_blog_comments_auth (m : ConnectionManager) (dec : DecodeResult)
    (ws blog_id : Nat) : ConnectionManager × WsAuthOutcome :=
  match dec with
  | .jwtError => (m, .closedInvalid)
  | .payload none => (m, .raisedBeforeConnect)
  | .payload (some uid) =>
    if uid = 0 then (m, .closedInvalid)
    else (m.connect ws blog_id, .connected uid)

/-- Outcome of `comment_crud.create` for a submitted message: the stored
comment's fields, or an exception. -/
inductive PersistOutcome where
  | success (commentId userId : Nat) (content createdAt : String)
  | failure
deriving DecidableEq

/-- Result of one iteration of the endpoint's receive loop. -/
structure WsIterResult where
  state : ConnectionManager
  delivered : List Nat        -- connections the comment event was sent to
  failureSentToSubmitter : Bool  -- did the submitter get an error message?
  loopContinues : Bool        -- false when the handler returned (socket closes)
deriving DecidableEq

/-- Lines 123-167 of websockets.py, one pass of the receive loop after a
message arrived: persist the comment, then broadcast.  An exception from
`comment_crud.create` (or from `broadcast`) lands in the generic
`except Exception` handler, which disconnects the websocket from the topic
and returns; nothing is sent back to the submitting client. -/
def websocket_blog_comments_message (m : ConnectionManager)
    (ws blog_id : Nat) (sendOk : Nat → Bool) (persist : PersistOutcome) :
    WsIterResult :=
  match persist with
  | .failure => ⟨m.disconnect ws blog_id, [], false, false⟩
  | .success _ _ _ _ =>
    let r := m.broadcast sendOk blog_id
    if r.raised then ⟨r.state.disconnect ws blog_id, r.delivered, false, false⟩
    else ⟨r.state, r.delivered, false, true⟩

/-! ## NotificationService (notification_service.py) and the SSE endpoint -/

/-- The fields of a Blog row that the notification messages read. -/
structure Blog where
  id : Nat
  title : String
  author_id : Nat
  created_at : String
  approved_at : String
deriving DecidableEq

/-- An SSE notification message: the `event` discriminator plus the flattened
`data` payload (fields absent from a given message kind are `none`). -/
structure SseEvent where
  event : String
  data_id : Nat
  data_title : String
  data_author_id : Option Nat
  data_created_at : Option String
  data_approved_at : Option String
deriving DecidableEq

/-- The message built by `notify_pending_blog` (lines 55-63). -/
def pendingMsg (blog : Blog) : SseEvent :=
  ⟨"new_pending_blog", blog.id, blog.title, some blog.author_id,
    some blog.created_at, none⟩

/-- The message built by `notify_blog_approved` (lines 90-97). -/
def approvedMsg (blog : Blog) : SseEvent :=
  ⟨"blog_approved", blog.id, blog.title, none, none, some blog.approved_at⟩

/-- The global subscriber pool: the set of private queue handles. -/
structure NotificationService where
  subscribers : List Nat
deriving DecidableEq

/-- The contents of every subscriber queue, FIFO: `put` appends at the end,
`get` takes the head. -/
abbrev QState := Nat → List SseEvent

/-- `queue.put(message)` on the queue with handle `q`. -/
def enqueueEvent (qs : QState) (q : Nat) (msg : SseEvent) : QState :=
  fun k => if k = q then qs k ++ [msg] else qs k

/-- `NotificationService.subscribe`: create a fresh queue and add it to the
pool (`fresh` stands for the newly allocated `asyncio.Queue()`). -/
def NotificationService.subscribe (ns : NotificationService) (fresh : Nat) :
    NotificationService :=
  ⟨addElem ns.subscribers fresh⟩

/-- `NotificationService.unsubscribe`: `self._subscribers.discard(queue)`. -/
def NotificationService.unsubscribe (ns : NotificationService) (q : Nat) :
    NotificationService :=
  ⟨discardElem ns.subscribers q⟩

/-- `NotificationService.notify_pending_blog`: put the pending-blog message
into every subscriber queue, collecting queues whose put raises (per the
`putOk` oracle) into dead_queues, then discard the dead queues from the
pool.  All exceptions are caught, so the publisher sees none. -/
def NotificationService.notify_pending_blog (ns : NotificationService)
    (qs : QState) (putOk : Nat → Bool) (blog : Blog) :
    NotificationService × QState :=
  let msg := pendingMsg blog
  let qs' := ns.subscribers.foldl
    (fun acc q => if putOk q then enqueueEvent acc q msg else acc) qs
  let dead := ns.subscribers.filter (fun q => ¬ putOk q)
  let subs' := dead.foldl (fun s q => discardElem s q) ns.subscribers
  (⟨subs'⟩, qs')

/-- `NotificationService.notify_blog_approved`: put the approval message into
every subscriber queue; a put failure is logged and swallowed, and — unlike
`notify_pending_blog` — the failing queue is NOT removed from the pool. -/
def NotificationService.notify_blog_approved (ns : NotificationService)
    (qs : QState) (putOk : Nat → Bool) (blog : Blog) :
    NotificationService × QState :=
  let msg := approvedMsg blog
  let qs' := ns.subscribers.foldl
    (fun acc q => if putOk q then enqueueEvent acc q msg else acc) qs
  (ns, qs')

/-- A publish through either entry point of the service. -/
inductive PublishCall where
  | pending (blog : Blog)
  | approved (blog : Blog)
deriving DecidableEq

/-- Run one publish call. -/
def runPublish (ns : NotificationService) (qs : QState) (putOk : Nat → Bool) :
    PublishCall → NotificationService × QState
  | .pending blog => ns.notify_pending_blog qs putOk blog
  | .approved blog => ns.notify_blog_approved qs putOk blog

/-- The message a publish call enqueues. -/
def msgOf : PublishCall → SseEvent
  | .pending blog => pendingMsg blog
  | .approved blog => approvedMsg blog

/-- `queue.get()`: take the oldest message, if any. -/
def queueGet : List SseEvent → Option (SseEvent × List SseEvent)
  | [] => none
  | e :: rest => some (e, rest)

/-- The SSE loop's view of a queue: the messages it will forward, in the
order repeated `queue.get()` calls return them. -/
def sseLoopDeliver : List SseEvent → List SseEvent
  | [] => []
  | e :: rest => e :: sseLoopDeliver rest

/-! ## SSE endpoint notification_stream / event_generator (notifications.py) -/

/-- How the body of event_generator's try block ends. -/
inductive GenExit where
  | generatorClosed  -- the client went away; the async generator is closed
  | cancelled        -- asyncio.CancelledError reached the loop
  | errored          -- some other exception reached the loop
deriving DecidableEq

/-- Primitive pool operations the generator performs, in order. -/
inductive PoolAction where
  | subscribeAction (q : Nat)
  | unsubscribeAction (q : Nat)
deriving DecidableEq

/-- Result of running event_generator to completion. -/
structure GenRun where
  pool : NotificationService
  trace : List PoolAction
  escaped : Bool  -- did an exception escape the generator?
deriving DecidableEq

/-- Lines 45-67 of notifications.py: subscribe, stream until the loop ends
with `why`, absorb CancelledError and Exception in the except arms, and
unsubscribe in the finally block on every exit path. -/
def event_generator (ns : NotificationService) (fresh : Nat)
    (why : GenExit) : GenRun :=
  let ns1 := ns.subscribe fresh
  let escaped :=
    match why with
    | .generatorClosed => false  -- normal end of the stream
    | .cancelled => false        -- except asyncio.CancelledError: absorbed
    | .errored => false          -- except Exception: absorbed
  let ns2 := ns1.unsubscribe fresh
  ⟨ns2, [.subscribeAction fresh, .unsubscribeAction fresh], escaped⟩

/-- Count the unsubscribe calls for handle `q` in a trace. -/
def countUnsubscribes (trace : List PoolAction) (q : Nat) : Nat :=
  trace.countP (fun a => a = .unsubscribeAction q)

/-- Outcome of the `require_approver` dependency chain (deps.py 20-145). -/
inductive ApproverCheck where
  | ok (userId : Nat)
  | unauthorized   -- bad token / unknown user: HTTP 401 raised
  | inactive       -- inactive user: HTTP 400 raised
  | forbidden      -- not admin / L1 approver: HTTP 403 raised
deriving DecidableEq

/-- The SSE route notification_stream: FastAPI resolves `require_approver`
before the handler body runs, so on any failed check the handler — and with
it `event_generator` and `subscribe` — is never entered. -/
def notification_stream (ns : NotificationService) (auth : ApproverCheck)
    (fresh : Nat) (why : GenExit) : GenRun :=
  match auth with
  | .ok _ => event_generator ns fresh why
  | _ => ⟨ns, [], false⟩

/-! ## Basic lemmas about the registry primitives -/

theorem lookupTopic_setEntry_self {l : List (Nat × List Nat)} {b : Nat}
    {s : List Nat} (h : lookupTopic l b = some s) (v : List Nat) :
    lookupTopic (setEntry l b v) b = some v := by
  induction l with
  | nil => simp [lookupTopic] at h
  | cons p rest ih =>
    obtain ⟨pk, pv⟩ := p
    by_cases hk : pk = b
    · subst hk
      simp [setEntry, lookupTopic]
    · simp only [lookupTopic, if_neg hk] at h
      simpa [setEntry, lookupTopic, hk] using ih h

theorem lookupTopic_setEntry_ne {l : List (Nat × List Nat)} {b k : Nat}
    (hk : k ≠ b) (v : List Nat) :
    lookupTopic (setEntry l b v) k = lookupTopic l k := by
  induction l with
  | nil => simp [setEntry, lookupTopic]
  | cons p rest ih =>
    obtain ⟨pk, pv⟩ := p
    by_cases hp : pk = b
    · subst hp
      simpa [setEntry, lookupTopic, Ne.symm hk] using ih
    · by_cases hpk : pk = k
      · subst hpk
        simp [setEntry, lookupTopic, hp]
      · simpa [setEntry, lookupTopic, hp, hpk] using ih

theorem lookupTopic_delEntry_self (l : List (Nat × List Nat)) (b : Nat) :
    lookupTopic (delEntry l b) b = none := by
  induction l with
  | nil => simp [delEntry, lookupTopic]
  | cons p rest ih =>
    obtain ⟨pk, pv⟩ := p
    by_cases hp : pk = b
    · subst hp
      simpa [delEntry, lookupTopic] using ih
    · simpa [delEntry, lookupTopic, hp] using ih

theorem lookupTopic_delEntry_ne {l : List (Nat × List Nat)} {b k : Nat}
    (hk : k ≠ b) : lookupTopic (delEntry l b) k = lookupTopic l k := by
  induction l with
  | nil => simp [delEntry, lookupTopic]
  | cons p rest ih =>
    obtain ⟨pk, pv⟩ := p
    by_cases hp : pk = b
    · subst hp
      simpa [delEntry, lookupTopic, Ne.symm hk] using ih
    · by_cases hpk : pk = k
      · subst hpk
        simp [delEntry, lookupTopic, hp]
      · simpa [delEntry, lookupTopic, hp, hpk] using ih

theorem lookupTopic_mem {l : List (Nat × List Nat)} {b : Nat} {s : List Nat}
    (h : lookupTopic l b = some s) : (b, s) ∈ l := by
  induction l with
  | nil => simp [lookupTopic] at h
  | cons p rest ih =>
    obtain ⟨pk, pv⟩ := p
    by_cases hp : pk = b
    · subst hp
      rw [show lookupTopic ((pk, pv) :: rest) pk = some pv by
            simp [lookupTopic]] at h
      injection h with h
      rw [h]
      exact List.mem_cons_self _ _
    · rw [show lookupTopic ((pk, pv) :: rest) b = lookupTopic rest b by
          simp [lookupTopic, hp]] at h
      exact List.mem_cons_of_mem _ (ih h)

theorem mem_discardElem {l : List Nat} {x c : Nat} :
    c ∈ discardElem l x ↔ c ∈ l ∧ c ≠ x := by
  simp [discardElem, List.mem_filter]

theorem self_not_mem_discardElem (l : List Nat) (x : Nat) :
    x ∉ discardElem l x := by
  intro h
  exact (mem_discardElem.mp h).2 rfl

theorem discardElem_of_not_mem {l : List Nat} {x : Nat} (h : x ∉ l) :
    discardElem l x = l := by
  apply List.filter_eq_self.mpr
  intro c hc
  simp only [bne_iff_ne, ne_eq]
  exact fun hcx => h (hcx ▸ hc)

theorem mem_setEntry {l : List (Nat × List Nat)} {b : Nat} {v : List Nat}
    {p : Nat × List Nat} (h : p ∈ setEntry l b v) :
    p = (b, v) ∨ (p ∈ l ∧ p.1 ≠ b) := by
  induction l with
  | nil => simp [setEntry] at h
  | cons q rest ih =>
    obtain ⟨qk, qv⟩ := q
    by_cases hq : qk = b
    · subst hq
      rw [show setEntry ((qk, qv) :: rest) qk v =
            (qk, v) :: setEntry rest qk v by simp [setEntry],
          List.mem_cons] at h
      rcases h with h | h
      · exact Or.inl h
      · rcases ih h with h' | h'
        · exact Or.inl h'
        · exact Or.inr ⟨List.mem_cons_of_mem _ h'.1, h'.2⟩
    · rw [show setEntry ((qk, qv) :: rest) b v =
            (qk, qv) :: setEntry rest b v by simp [setEntry, hq],
          List.mem_cons] at h
      rcases h with h | h
      · rw [h]
        exact Or.inr ⟨List.mem_cons_self _ _, hq⟩
      · rcases ih h with h' | h'
        · exact Or.inl h'
        · exact Or.inr ⟨List.mem_cons_of_mem _ h'.1, h'.2⟩

theorem mem_delEntry {l : List (Nat × List Nat)} {b : Nat}
    {p : Nat × List Nat} (h : p ∈ delEntry l b) : p ∈ l := by
  induction l with
  | nil => simp [delEntry] at h
  | cons q rest ih =>
    obtain ⟨qk, qv⟩ := q
    by_cases hq : qk = b
    · subst hq
      simp only [delEntry, if_pos rfl] at h
      exact List.mem_cons_of_mem _ (ih h)
    · simp only [delEntry, if_neg hq, List.mem_cons] at h
      rcases h with h | h
      · exact h ▸ List.mem_cons_self _ _
      · exact List.mem_cons_of_mem _ (ih h)

theorem setEntry_setEntry (l : List (Nat × List Nat)) (b : Nat)
    (v v' : List Nat) : setEntry (setEntry l b v) b v' = setEntry l b v' := by
  induction l with
  | nil => simp [setEntry]
  | cons q rest ih =>
    obtain ⟨qk, qv⟩ := q
    by_cases hq : qk = b
    · subst hq
      simp [setEntry, ih]
    · simp [setEntry, hq, ih]

theorem setEntry_of_key_not_mem {l : List (Nat × List Nat)} {b : Nat}
    (h : b ∉ l.map Prod.fst) (v : List Nat) : setEntry l b v = l := by
  induction l with
  | nil => simp [setEntry]
  | cons q rest ih =>
    obtain ⟨qk, qv⟩ := q
    simp only [List.map_cons, List.mem_cons] at h
    push_neg at h
    simp [setEntry, Ne.symm h.1, ih h.2]

theorem setEntry_lookup_self {l : List (Nat × List Nat)} {b : Nat}
    {s : List Nat} (hnd : (l.map Prod.fst).Nodup)
    (h : lookupTopic l b = some s) : setEntry l b s = l := by
  induction l with
  | nil => simp [lookupTopic] at h
  | cons q rest ih =>
    obtain ⟨qk, qv⟩ := q
    simp only [List.map_cons, List.nodup_cons] at hnd
    by_cases hq : qk = b
    · subst hq
      rw [show lookupTopic ((qk, qv) :: rest) qk = some qv by
            simp [lookupTopic],
          Option.some.injEq] at h
      subst h
      simp [setEntry, setEntry_of_key_not_mem hnd.1]
    · rw [show lookupTopic ((qk, qv) :: rest) b = lookupTopic rest b by
            simp [lookupTopic, hq]] at h
      simp [setEntry, hq, ih hnd.2 h]

/-- The addElem of a connection is never the empty set. -/
theorem addElem_ne_nil (l : List Nat) (x : Nat) : addElem l x ≠ [] := by
  unfold addElem
  by_cases h : x ∈ l
  · simp only [if_pos h]
    intro hnil
    exact (List.not_mem_nil x) (hnil ▸ h)
  · simp [if_neg h]

theorem WF_connect {m : ConnectionManager} (hm : WF m) (ws b : Nat) :
    WF (m.connect ws b) := by
  intro p hp
  unfold ConnectionManager.connect at hp
  simp only at hp
  rcases mem_setEntry hp with h | h
  · subst h
    exact addElem_ne_nil _ _
  · by_cases hb : (lookupTopic m.active_connections b).isSome
    · simp only [if_pos hb] at h
      exact hm p h.1
    · simp only [if_neg hb, List.mem_append, List.mem_singleton] at h
      rcases h.1 with h1 | h1
      · exact hm p h1
      · exact absurd (congrArg Prod.fst h1) h.2

theorem WF_disconnect {m : ConnectionManager} (hm : WF m) (ws b : Nat) :
    WF (m.disconnect ws b) := by
  intro p hp
  unfold ConnectionManager.disconnect at hp
  cases h : lookupTopic m.active_connections b with
  | none =>
    rw [h] at hp
    exact hm p hp
  | some members =>
    rw [h] at hp
    by_cases he : discardElem members ws = []
    · simp only [he, if_pos rfl] at hp
      exact hm p (mem_delEntry hp)
    · simp only [if_neg he] at hp
      rcases mem_setEntry hp with h' | h'
      · subst h'
        exact he
      · exact hm p h'.1

/-- The frame property of `disconnect`: other topics are untouched. -/
theorem disconnect_frame (m : ConnectionManager) (ws b k : Nat) (hk : k ≠ b) :
    lookupTopic (m.disconnect ws b).active_connections k =
      lookupTopic m.active_connections k := by
  unfold ConnectionManager.disconnect
  cases h : lookupTopic m.active_connections b with
  | none => rfl
  | some members =>
    by_cases he : discardElem members ws = []
    · simp [he, lookupTopic_delEntry_ne hk]
    · simp [he, lookupTopic_setEntry_ne hk]

theorem disconnect_of_absent {m : ConnectionManager} {b : Nat}
    (h : lookupTopic m.active_connections b = none) (ws : Nat) :
    m.disconnect ws b = m := by
  unfold ConnectionManager.disconnect
  rw [h]

theorem disconnect_of_mem_empty {m : ConnectionManager} {b : Nat}
    {members : List Nat} {ws : Nat}
    (h : lookupTopic m.active_connections b = some members)
    (he : discardElem members ws = []) :
    m.disconnect ws b = ⟨delEntry m.active_connections b⟩ := by
  unfold ConnectionManager.disconnect
  rw [h]
  simp [he]

theorem disconnect_of_mem_nonempty {m : ConnectionManager} {b : Nat}
    {members : List Nat} {ws : Nat}
    (h : lookupTopic m.active_connections b = some members)
    (he : discardElem members ws ≠ []) :
    m.disconnect ws b =
      ⟨setEntry m.active_connections b (discardElem members ws)⟩ := by
  unfold ConnectionManager.disconnect
  rw [h]
  simp [he]

/-- `disconnect` is idempotent, from any registry state. -/
theorem disconnect_idem (m : ConnectionManager) (ws b : Nat) :
    (m.disconnect ws b).disconnect ws b = m.disconnect ws b := by
  cases h : lookupTopic m.active_connections b with
  | none =>
    rw [disconnect_of_absent h, disconnect_of_absent h]
  | some members =>
    by_cases he : discardElem members ws = []
    · rw [disconnect_of_mem_empty h he]
      exact disconnect_of_absent (lookupTopic_delEntry_self _ _) ws
    · have hv : discardElem (discardElem members ws) ws =
          discardElem members ws :=
        discardElem_of_not_mem (self_not_mem_discardElem members ws)
      have he2 : discardElem (discardElem members ws) ws ≠ [] := by
        rw [hv]
        exact he
      rw [disconnect_of_mem_nonempty h he,
        disconnect_of_mem_nonempty (lookupTopic_setEntry_self h _) he2, hv,
        setEntry_setEntry]

/-- A disconnected handle is gone from its topic's member set. -/
theorem not_mem_after_disconnect (m : ConnectionManager) (ws b : Nat) :
    ws ∉ (lookupTopic (m.disconnect ws b).active_connections b).getD [] := by
  cases h : lookupTopic m.active_connections b with
  | none =>
    rw [disconnect_of_absent h, h]
    simp
  | some members =>
    by_cases he : discardElem members ws = []
    · rw [disconnect_of_mem_empty h he]
      simp [lookupTopic_delEntry_self]
    · rw [disconnect_of_mem_nonempty h he]
      have := lookupTopic_setEntry_self h (discardElem members ws)
      simp only [this, Option.getD_some]
      exact self_not_mem_discardElem members ws

/-- `disconnect` on a state where the handle is not registered under the
topic is a strict no-op (dict keys are unique, no entry is empty). -/
theorem disconnect_not_registered {m : ConnectionManager} {ws b : Nat}
    (hwf : WF m) (hnd : KeysNodup m)
    (h : ws ∉ (lookupTopic m.active_connections b).getD []) :
    m.disconnect ws b = m := by
  cases hl : lookupTopic m.active_connections b with
  | none => exact disconnect_of_absent hl ws
  | some members =>
    rw [hl] at h
    simp only [Option.getD_some] at h
    have hd : discardElem members ws = members := discardElem_of_not_mem h
    have hne : members ≠ [] := hwf (b, members) (lookupTopic_mem hl)
    have he : discardElem members ws ≠ [] := by
      rw [hd]
      exact hne
    rw [disconnect_of_mem_nonempty hl he, hd,
      setEntry_lookup_self hnd hl]

/-! ## Lemmas about the subscriber pool and queue folds -/

theorem enqueueEvent_self (qs : QState) (q : Nat) (msg : SseEvent) :
    enqueueEvent qs q msg q = qs q ++ [msg] := by
  simp [enqueueEvent]

theorem enqueueEvent_ne {k q : Nat} (hk : k ≠ q) (qs : QState)
    (msg : SseEvent) : enqueueEvent qs q msg k = qs k := by
  simp [enqueueEvent, hk]

theorem putAll_not_mem {putOk : Nat → Bool} {msg : SseEvent} {l : List Nat}
    {s : Nat} (hs : s ∉ l) (qs : QState) :
    l.foldl (fun acc q => if putOk q then enqueueEvent acc q msg else acc)
      qs s = qs s := by
  induction l generalizing qs with
  | nil => rfl
  | cons q l' ih =>
    have hs' : s ∉ l' := fun h => hs (List.mem_cons_of_mem _ h)
    have hq : s ≠ q := fun h => hs (h ▸ List.mem_cons_self _ _)
    rw [List.foldl_cons, ih hs']
    by_cases hp : putOk q
    · rw [if_pos hp, enqueueEvent_ne hq]
    · rw [if_neg hp]

theorem putAll_value {putOk : Nat → Bool} {msg : SseEvent} {l : List Nat}
    {s : Nat} (hnd : l.Nodup) (hs : s ∈ l) (hok : putOk s = true)
    (qs : QState) :
    l.foldl (fun acc q => if putOk q then enqueueEvent acc q msg else acc)
      qs s = qs s ++ [msg] := by
  induction l generalizing qs with
  | nil => cases hs
  | cons q l' ih =>
    rw [List.foldl_cons]
    rcases List.mem_cons.mp hs with h | h
    · subst h
      rw [putAll_not_mem (List.nodup_cons.mp hnd).1, if_pos hok,
        enqueueEvent_self]
    · have hq : s ≠ q := by
        intro h'
        exact (List.nodup_cons.mp hnd).1 (h' ▸ h)
      rw [ih (List.nodup_cons.mp hnd).2 h]
      by_cases hp : putOk q
      · rw [if_pos hp, enqueueEvent_ne hq]
      · rw [if_neg hp]

theorem foldl_discardElem_eq_filter (dead l : List Nat) :
    dead.foldl (fun s q => discardElem s q) l
      = l.filter (fun x => decide (x ∉ dead)) := by
  induction dead generalizing l with
  | nil => simp
  | cons d ds ih =>
    rw [List.foldl_cons, ih]
    unfold discardElem
    rw [List.filter_filter]
    apply List.filter_congr
    intro x _
    by_cases hd : x = d
    · subst hd
      simp
    · by_cases hds : x ∈ ds <;> simp [hd, hds]

theorem mem_notify_pending_subscribers {ns : NotificationService}
    {qs : QState} {putOk : Nat → Bool} {blog : Blog} {q : Nat} :
    q ∈ (ns.notify_pending_blog qs putOk blog).1.subscribers ↔
      q ∈ ns.subscribers ∧ putOk q = true := by
  unfold NotificationService.notify_pending_blog
  simp only
  rw [foldl_discardElem_eq_filter, List.mem_filter]
  constructor
  · rintro ⟨hmem, hdead⟩
    refine ⟨hmem, ?_⟩
    simp only [decide_eq_true_eq, List.mem_filter] at hdead
    by_contra hko
    exact hdead ⟨hmem, hko⟩
  · rintro ⟨hmem, hok⟩
    refine ⟨hmem, ?_⟩
    simp only [decide_eq_true_eq, List.mem_filter]
    rintro ⟨-, hko⟩
    simp [hok] at hko

theorem notify_pending_subscribers_nodup {ns : NotificationService}
    {qs : QState} {putOk : Nat → Bool} {blog : Blog}
    (hnd : ns.subscribers.Nodup) :
    (ns.notify_pending_blog qs putOk blog).1.subscribers.Nodup := by
  unfold NotificationService.notify_pending_blog
  simp only
  rw [foldl_discardElem_eq_filter]
  exact hnd.filter _

theorem notify_pending_queue_value {ns : NotificationService} {qs : QState}
    {putOk : Nat → Bool} {blog : Blog} {s : Nat}
    (hnd : ns.subscribers.Nodup) (hs : s ∈ ns.subscribers)
    (hok : putOk s = true) :
    (ns.notify_pending_blog qs putOk blog).2 s = qs s ++ [pendingMsg blog] :=
  putAll_value hnd hs hok qs

theorem notify_approved_queue_value {ns : NotificationService} {qs : QState}
    {putOk : Nat → Bool} {blog : Blog} {s : Nat}
    (hnd : ns.subscribers.Nodup) (hs : s ∈ ns.subscribers)
    (hok : putOk s = true) :
    (ns.notify_blog_approved qs putOk blog).2 s = qs s ++ [approvedMsg blog] :=
  putAll_value hnd hs hok qs

theorem runPublish_queue_value {ns : NotificationService} {qs : QState}
    {putOk : Nat → Bool} {c : PublishCall} {s : Nat}
    (hnd : ns.subscribers.Nodup) (hs : s ∈ ns.subscribers)
    (hok : putOk s = true) :
    (runPublish ns qs putOk c).2 s = qs s ++ [msgOf c] := by
  cases c with
  | pending blog => exact notify_pending_queue_value hnd hs hok
  | approved blog => exact notify_approved_queue_value hnd hs hok

theorem runPublish_subscriber_kept {ns : NotificationService} {qs : QState}
    {putOk : Nat → Bool} {c : PublishCall} {s : Nat}
    (hs : s ∈ ns.subscribers) (hok : putOk s = true) :
    s ∈ (runPublish ns qs putOk c).1.subscribers := by
  cases c with
  | pending blog => exact mem_notify_pending_subscribers.mpr ⟨hs, hok⟩
  | approved blog => exact hs

theorem runPublish_subscribers_nodup {ns : NotificationService} {qs : QState}
    {putOk : Nat → Bool} {c : PublishCall}
    (hnd : ns.subscribers.Nodup) :
    (runPublish ns qs putOk c).1.subscribers.Nodup := by
  cases c with
  | pending blog => exact notify_pending_subscribers_nodup hnd
  | approved blog => exact hnd

theorem sseLoopDeliver_eq (q : List SseEvent) : sseLoopDeliver q = q := by
  induction q with
  | nil => rfl
  | cons e rest ih => simp [sseLoopDeliver, ih]

/-- The SSE loop reads the queue through repeated `queue.get()` calls. -/
theorem sseLoopDeliver_queueGet (q : List SseEvent) :
    sseLoopDeliver q =
      match queueGet q with
      | none => []
      | some pr => pr.1 :: sseLoopDeliver pr.2 := by
  cases q <;> rfl

theorem discardElem_addElem_of_not_mem {l : List Nat} {x : Nat} (h : x ∉ l) :
    discardElem (addElem l x) x = l := by
  unfold addElem
  rw [if_neg h]
  unfold discardElem
  rw [List.filter_append]
  have h1 : List.filter (fun c => c != x) l = l :=
    discardElem_of_not_mem h
  have h2 : List.filter (fun c => c != x) [x] = [] := by simp
  rw [h1, h2, List.append_nil]

/-! ## Remaining helper lemmas -/

theorem WF_applyOp {m : ConnectionManager} (hm : WF m) (op : RegistryOp) :
    WF (applyOp m op) := by
  cases op with
  | join ws b => exact WF_connect hm ws b
  | leave ws b => exact WF_disconnect hm ws b

theorem WF_applyOps {m : ConnectionManager} (hm : WF m)
    (ops : List RegistryOp) : WF (applyOps m ops) := by
  induction ops generalizing m with
  | nil => exact hm
  | cons op rest ih => exact ih (WF_applyOp hm op)

theorem foldl_disconnect_frame (dead : List Nat) (m : ConnectionManager)
    (b k : Nat) (hk : k ≠ b) :
    lookupTopic
        (dead.foldl (fun s c => s.disconnect c b) m).active_connections k
      = lookupTopic m.active_connections k := by
  induction dead generalizing m with
  | nil => rfl
  | cons d ds ih =>
    rw [List.foldl_cons, ih (m.disconnect d b), disconnect_frame m d b k hk]

theorem broadcast_of_absent {m : ConnectionManager} {b : Nat}
    (h : lookupTopic m.active_connections b = none) (sendOk : Nat → Bool) :
    m.broadcast sendOk b = ⟨m, [], false⟩ := by
  unfold ConnectionManager.broadcast
  rw [h]

theorem broadcast_of_mem {m : ConnectionManager} {b : Nat}
    {members : List Nat}
    (h : lookupTopic m.active_connections b = some members)
    (sendOk : Nat → Bool) :
    m.broadcast sendOk b =
      ⟨(members.filter (fun c => ¬ sendOk c)).foldl
          (fun s c => s.disconnect c b) m,
        members.filter sendOk,
        (lookupTopic ((members.filter (fun c => ¬ sendOk c)).foldl
            (fun s c => s.disconnect c b) m).active_connections b).isNone⟩ := by
  unfold ConnectionManager.broadcast
  rw [h]

/-! ## Claims -/

/-- Claim C1: the spec says `broadcast` never raises because of individual
per-connection delivery failures, including when every member's send fails.
The code violates this: with topic 1 holding the single connection 10 and
every send failing, the pruning loop removes the last member, deletes the
topic entry, and the final debug log line then evaluates
`len(self.active_connections[blog_id])` on the missing key and raises
`KeyError`.  This theorem evaluates the embedded `broadcast` at that failing
input: the call escapes with an exception even though each failed connection
was removed as the spec prescribes. -/
theorem claim1_broadcast_raises_when_all_sends_fail :
    (ConnectionManager.broadcast ⟨[(1, [10])]⟩ (fun _ => false) 1).raised = true
      ∧ (ConnectionManager.broadcast ⟨[(1, [10])]⟩ (fun _ => false) 1).state.active_connections = []
      ∧ (ConnectionManager.broadcast ⟨[(1, [10])]⟩ (fun _ => false) 1).delivered = [] := by
  decide

/-- Counterexample to claim C2 as stated: on topic 5 with members 1 and 2,
when persistence fails for the message submitted by connection 1, the claim
requires connection 1 to remain registered in the topic and to receive a
failure indication; the code does neither (the generic exception handler
disconnects the submitter and sends nothing back). -/
theorem claim2_counterexample :
    ¬ (1 ∈ (lookupTopic (websocket_blog_comments_message ⟨[(5, [1, 2])]⟩ 1 5 (fun _ => true) PersistOutcome.failure).state.active_connections 5).getD []
        ∧ (websocket_blog_comments_message ⟨[(5, [1, 2])]⟩ 1 5 (fun _ => true) PersistOutcome.failure).failureSentToSubmitter = true) := by
  decide

/-- Claim C2 (amended): when the persistence collaborator fails for a
submitted message, no broadcast occurs for that message (zero events are
delivered, so other members see nothing) — but, contrary to the original
claim, the submitting connection does NOT stay registered and receives no
failure indication: the endpoint's generic exception handler removes it from
the topic's member set and returns, closing the connection. -/
theorem claim2_persist_failure_behavior (m : ConnectionManager)
    (ws b : Nat) (sendOk : Nat → Bool) :
    (websocket_blog_comments_message m ws b sendOk
          PersistOutcome.failure).delivered = []
      ∧ (websocket_blog_comments_message m ws b sendOk
          PersistOutcome.failure).failureSentToSubmitter = false
      ∧ (websocket_blog_comments_message m ws b sendOk
          PersistOutcome.failure).loopContinues = false
      ∧ ws ∉ (lookupTopic (websocket_blog_comments_message m ws b sendOk
          PersistOutcome.failure).state.active_connections b).getD [] :=
  ⟨rfl, rfl, rfl, not_mem_after_disconnect m ws b⟩

/-- Counterexample to claim C3 as stated: the claim asserts that BOTH publish
entry points remove a queue whose enqueue fails.  With queue 1 the only
subscriber and its put failing, `notify_blog_approved` swallows the failure
but leaves queue 1 in the pool. -/
theorem claim3_counterexample :
    1 ∈ (NotificationService.notify_blog_approved ⟨[1]⟩ (fun _ => [])
        (fun _ => false) ⟨7, "t", 1, "c", "a"⟩).1.subscribers := by
  decide

/-- Claim C3 (amended): `notify_pending_blog` removes every queue whose
enqueue fails from the pool as part of the same publish call, and the failure
does not affect delivery to the other subscribers; `notify_blog_approved`
likewise swallows the failure and delivers to the other subscribers, but —
contrary to the original claim — leaves the failing queue in the pool.  In
both entry points the failure never surfaces to the publisher. -/
theorem claim3_dead_queue_removal (ns : NotificationService) (qs : QState)
    (putOk : Nat → Bool) (blog : Blog) (q r : Nat) :
    (q ∈ ns.subscribers → putOk q = false →
        q ∉ (ns.notify_pending_blog qs putOk blog).1.subscribers)
      ∧ (ns.notify_blog_approved qs putOk blog).1 = ns
      ∧ (ns.subscribers.Nodup → r ∈ ns.subscribers → putOk r = true →
          (ns.notify_pending_blog qs putOk blog).2 r
              = qs r ++ [pendingMsg blog]
            ∧ (ns.notify_blog_approved qs putOk blog).2 r
              = qs r ++ [approvedMsg blog]) := by
  refine ⟨?_, rfl, ?_⟩
  · intro hq hko hmem
    have h := (mem_notify_pending_subscribers.mp hmem).2
    rw [hko] at h
    cases h
  · intro hnd hr hok
    exact ⟨notify_pending_queue_value hnd hr hok,
      notify_approved_queue_value hnd hr hok⟩

theorem claim3_witness :
    1 ∈ ([1, 2] : List Nat)
      ∧ (fun q => q == 2) 1 = false
      ∧ 1 ∉ (NotificationService.notify_pending_blog ⟨[1, 2]⟩ (fun _ => [])
          (fun q => q == 2) ⟨7, "t", 1, "c", "a"⟩).1.subscribers :=
  ⟨by decide, by decide,
    (claim3_dead_queue_removal ⟨[1, 2]⟩ (fun _ => []) (fun q => q == 2)
      ⟨7, "t", 1, "c", "a"⟩ 1 2).1 (by decide) (by decide)⟩

/-- Claim C4: a connection attempt whose bearer token fails validation never
produces a registration side effect.  For the WebSocket endpoint, any decode
outcome other than a payload with a non-zero numeric sub leaves the topic
registry untouched and never reaches `manager.connect`; for the SSE endpoint,
any failed `require_approver` check leaves the subscriber pool untouched and
performs no `subscribe` call. -/
theorem claim4_auth_gate (m : ConnectionManager) (dec : DecodeResult)
    (ws b : Nat) (ns : NotificationService) (auth : ApproverCheck)
    (fresh : Nat) (why : GenExit) :
    (¬ dec.valid →
        (websocket_blog_comments_auth m dec ws b).1 = m
          ∧ ∀ uid, (websocket_blog_comments_auth m dec ws b).2
              ≠ WsAuthOutcome.connected uid)
      ∧ ((∀ uid, auth ≠ ApproverCheck.ok uid) →
          (notification_stream ns auth fresh why).pool = ns
            ∧ (notification_stream ns auth fresh why).trace = []) := by
  constructor
  · intro hv
    cases dec with
    | jwtError => exact ⟨rfl, fun uid h => WsAuthOutcome.noConfusion h⟩
    | payload s =>
      cases s with
      | none => exact ⟨rfl, fun uid h => WsAuthOutcome.noConfusion h⟩
      | some uid0 =>
        by_cases h0 : uid0 = 0
        · subst h0
          exact ⟨rfl, fun uid h => WsAuthOutcome.noConfusion h⟩
        · exact absurd h0 hv
  · intro ha
    cases auth with
    | ok uid => exact absurd rfl (ha uid)
    | unauthorized => exact ⟨rfl, rfl⟩
    | inactive => exact ⟨rfl, rfl⟩
    | forbidden => exact ⟨rfl, rfl⟩

theorem claim4_witness :
    ¬ DecodeResult.valid DecodeResult.jwtError
      ∧ (websocket_blog_comments_auth ⟨[]⟩ DecodeResult.jwtError 1 2).1 = ⟨[]⟩
      ∧ (notification_stream ⟨[4]⟩ ApproverCheck.forbidden 9
          GenExit.errored).pool = ⟨[4]⟩ :=
  ⟨by decide,
    ((claim4_auth_gate ⟨[]⟩ DecodeResult.jwtError 1 2 ⟨[4]⟩
        ApproverCheck.forbidden 9 GenExit.errored).1 (by decide)).1,
    ((claim4_auth_gate ⟨[]⟩ DecodeResult.jwtError 1 2 ⟨[4]⟩
        ApproverCheck.forbidden 9 GenExit.errored).2
      (fun uid h => ApproverCheck.noConfusion h)).1⟩

/-- Claim C5: the topic registry never holds an empty member set.  Any
sequence of join/leave operations started from a well-formed registry yields
a well-formed registry (no topic entry with an empty member set), and when
the last member of a topic leaves, the topic's entry is deleted from the
registry map. -/
theorem claim5_registry_no_empty_entries (m : ConnectionManager)
    (ops : List RegistryOp) (b ws : Nat) :
    (WF m → WF (applyOps m ops))
      ∧ (lookupTopic m.active_connections b = some [ws] →
          lookupTopic ((m.disconnect ws b).active_connections) b = none) := by
  constructor
  · intro hm
    exact WF_applyOps hm ops
  · intro hl
    have he : discardElem [ws] ws = [] := by simp [discardElem]
    rw [disconnect_of_mem_empty hl he]
    exact lookupTopic_delEntry_self _ _

theorem claim5_witness :
    WF (⟨[(42, [7])]⟩ : ConnectionManager)
      ∧ lookupTopic (⟨[(42, [7])]⟩ : ConnectionManager).active_connections 42
          = some [7]
      ∧ WF (applyOps ⟨[(42, [7])]⟩
          [RegistryOp.join 1 3, RegistryOp.leave 1 3])
      ∧ lookupTopic ((ConnectionManager.disconnect ⟨[(42, [7])]⟩ 7
          42).active_connections) 42 = none :=
  ⟨by decide, by decide,
    (claim5_registry_no_empty_entries ⟨[(42, [7])]⟩
      [RegistryOp.join 1 3, RegistryOp.leave 1 3] 42 7).1 (by decide),
    (claim5_registry_no_empty_entries ⟨[(42, [7])]⟩
      [RegistryOp.join 1 3, RegistryOp.leave 1 3] 42 7).2 (by decide)⟩

/-- Claim C6: publishing a pending-blog event enqueues it into every live
subscriber's private queue, and the event's data carries the blog's id. -/
theorem claim6_publish_reaches_every_subscriber (ns : NotificationService)
    (qs : QState) (putOk : Nat → Bool) (blog : Blog) (s : Nat)
    (hnd : ns.subscribers.Nodup) (hs : s ∈ ns.subscribers)
    (hok : putOk s = true) :
    (ns.notify_pending_blog qs putOk blog).2 s = qs s ++ [pendingMsg blog]
      ∧ (pendingMsg blog).data_id = blog.id :=
  ⟨notify_pending_queue_value hnd hs hok, rfl⟩

theorem claim6_witness :
    ([1, 2] : List Nat).Nodup
      ∧ 1 ∈ ([1, 2] : List Nat)
      ∧ 2 ∈ ([1, 2] : List Nat)
      ∧ (NotificationService.notify_pending_blog ⟨[1, 2]⟩ (fun _ => [])
          (fun _ => true) ⟨7, "t", 3, "c", "a"⟩).2 1
          = [pendingMsg ⟨7, "t", 3, "c", "a"⟩]
      ∧ (NotificationService.notify_pending_blog ⟨[1, 2]⟩ (fun _ => [])
          (fun _ => true) ⟨7, "t", 3, "c", "a"⟩).2 2
          = [pendingMsg ⟨7, "t", 3, "c", "a"⟩]
      ∧ (pendingMsg ⟨7, "t", 3, "c", "a"⟩).data_id = 7 :=
  ⟨by decide, by decide, by decide,
    (claim6_publish_reaches_every_subscriber ⟨[1, 2]⟩ (fun _ => [])
      (fun _ => true) ⟨7, "t", 3, "c", "a"⟩ 1 (by decide) (by decide)
      (by decide)).1,
    (claim6_publish_reaches_every_subscriber ⟨[1, 2]⟩ (fun _ => [])
      (fun _ => true) ⟨7, "t", 3, "c", "a"⟩ 2 (by decide) (by decide)
      (by decide)).1,
    (claim6_publish_reaches_every_subscriber ⟨[1, 2]⟩ (fun _ => [])
      (fun _ => true) ⟨7, "t", 3, "c", "a"⟩ 2 (by decide) (by decide)
      (by decide)).2⟩

/-- Claim C7: on every exit path of the SSE event generator — normal close,
cancellation, error — the subscriber's fresh queue handle is unsubscribed
from the pool exactly once, the pool is restored to its pre-stream state, no
orphaned queue remains, and no exception escapes the generator. -/
theorem claim7_sse_cleanup (ns : NotificationService) (fresh : Nat)
    (why : GenExit) (hf : fresh ∉ ns.subscribers) :
    (event_generator ns fresh why).pool = ns
      ∧ countUnsubscribes (event_generator ns fresh why).trace fresh = 1
      ∧ fresh ∉ (event_generator ns fresh why).pool.subscribers
      ∧ (event_generator ns fresh why).escaped = false := by
  have hpool : (event_generator ns fresh why).pool = ns := by
    calc (event_generator ns fresh why).pool
        = ⟨discardElem (addElem ns.subscribers fresh) fresh⟩ := rfl
      _ = ⟨ns.subscribers⟩ := by rw [discardElem_addElem_of_not_mem hf]
      _ = ns := rfl
  refine ⟨hpool, ?_, ?_, ?_⟩
  · simp [countUnsubscribes, event_generator, List.countP_cons]
  · rw [hpool]
    exact hf
  · cases why <;> rfl

theorem claim7_witness :
    9 ∉ (⟨[4]⟩ : NotificationService).subscribers
      ∧ (event_generator ⟨[4]⟩ 9 GenExit.cancelled).pool = ⟨[4]⟩
      ∧ countUnsubscribes (event_generator ⟨[4]⟩ 9
          GenExit.cancelled).trace 9 = 1 :=
  ⟨by decide,
    (claim7_sse_cleanup ⟨[4]⟩ 9 GenExit.cancelled (by decide)).1,
    (claim7_sse_cleanup ⟨[4]⟩ 9 GenExit.cancelled (by decide)).2.1⟩

/-- Claim C8: `disconnect` (leave) and `unsubscribe` are idempotent: a second
call with the same handle changes nothing and raises no error, and calling
either on a handle that was never registered is a no-op (for `disconnect`,
under the reachable-state facts that the registry is a dict with unique keys
and holds no empty member set). -/
theorem claim8_leave_unsubscribe_idempotent (m : ConnectionManager)
    (ws b : Nat) (ns : NotificationService) (q : Nat) :
    ((m.disconnect ws b).disconnect ws b = m.disconnect ws b)
      ∧ ((ns.unsubscribe q).unsubscribe q = ns.unsubscribe q)
      ∧ (WF m → KeysNodup m →
          ws ∉ (lookupTopic m.active_connections b).getD [] →
          m.disconnect ws b = m)
      ∧ (q ∉ ns.subscribers → ns.unsubscribe q = ns) := by
  refine ⟨disconnect_idem m ws b, ?_, ?_, ?_⟩
  · show (⟨discardElem (discardElem ns.subscribers q) q⟩ :
        NotificationService) = ⟨discardElem ns.subscribers q⟩
    rw [discardElem_of_not_mem (self_not_mem_discardElem _ _)]
  · intro h1 h2 h3
    exact disconnect_not_registered h1 h2 h3
  · intro hq
    show (⟨discardElem ns.subscribers q⟩ : NotificationService) = ns
    rw [discardElem_of_not_mem hq]

theorem claim8_witness :
    WF (⟨[(2, [5])]⟩ : ConnectionManager)
      ∧ KeysNodup (⟨[(2, [5])]⟩ : ConnectionManager)
      ∧ 9 ∉ (lookupTopic (⟨[(2, [5])]⟩ :
          ConnectionManager).active_connections 2).getD []
      ∧ ConnectionManager.disconnect ⟨[(2, [5])]⟩ 9 2 = ⟨[(2, [5])]⟩
      ∧ 8 ∉ (⟨[3]⟩ : NotificationService).subscribers
      ∧ NotificationService.unsubscribe ⟨[3]⟩ 8 = ⟨[3]⟩ :=
  ⟨by decide, by decide, by decide,
    (claim8_leave_unsubscribe_idempotent ⟨[(2, [5])]⟩ 9 2 ⟨[3]⟩ 8).2.2.1
      (by decide) (by decide) (by decide),
    by decide,
    (claim8_leave_unsubscribe_idempotent ⟨[(2, [5])]⟩ 9 2 ⟨[3]⟩ 8).2.2.2
      (by decide)⟩

/-- Claim C9: each subscriber's private queue is FIFO: when two events are
published (through either entry point) while subscriber `s` stays registered
and its puts succeed, s's queue afterwards holds the two messages appended in
publish order, and the SSE loop — which reads by repeated `queue.get()` —
forwards them in that same order. -/
theorem claim9_fifo_per_subscriber (ns : NotificationService) (qs : QState)
    (putOk1 putOk2 : Nat → Bool) (c1 c2 : PublishCall) (s : Nat)
    (hnd : ns.subscribers.Nodup) (hs : s ∈ ns.subscribers)
    (h1 : putOk1 s = true) (h2 : putOk2 s = true) :
    (runPublish (runPublish ns qs putOk1 c1).1 (runPublish ns qs putOk1 c1).2
          putOk2 c2).2 s = qs s ++ [msgOf c1, msgOf c2]
      ∧ sseLoopDeliver ((runPublish (runPublish ns qs putOk1 c1).1
            (runPublish ns qs putOk1 c1).2 putOk2 c2).2 s)
          = sseLoopDeliver (qs s) ++ [msgOf c1, msgOf c2] := by
  have hnd2 := @runPublish_subscribers_nodup ns qs putOk1 c1 hnd
  have hkept := @runPublish_subscriber_kept ns qs putOk1 c1 s hs h1
  have hv1 := @runPublish_queue_value ns qs putOk1 c1 s hnd hs h1
  have hv2 := @runPublish_queue_value (runPublish ns qs putOk1 c1).1
    (runPublish ns qs putOk1 c1).2 putOk2 c2 s hnd2 hkept h2
  have hmain : (runPublish (runPublish ns qs putOk1 c1).1
      (runPublish ns qs putOk1 c1).2 putOk2 c2).2 s
        = qs s ++ [msgOf c1, msgOf c2] := by
    rw [hv2, hv1, List.append_assoc]
    rfl
  refine ⟨hmain, ?_⟩
  rw [sseLoopDeliver_eq, sseLoopDeliver_eq, hmain]

theorem claim9_witness :
    ([1, 2] : List Nat).Nodup
      ∧ 1 ∈ ([1, 2] : List Nat)
      ∧ (runPublish (runPublish ⟨[1, 2]⟩ (fun _ => []) (fun _ => true)
            (PublishCall.pending ⟨7, "t", 3, "c", "a"⟩)).1
          (runPublish ⟨[1, 2]⟩ (fun _ => []) (fun _ => true)
            (PublishCall.pending ⟨7, "t", 3, "c", "a"⟩)).2
          (fun _ => true)
          (PublishCall.approved ⟨8, "u", 3, "d", "b"⟩)).2 1
        = [pendingMsg ⟨7, "t", 3, "c", "a"⟩,
            approvedMsg ⟨8, "u", 3, "d", "b"⟩] :=
  ⟨by decide, by decide,
    (claim9_fifo_per_subscriber ⟨[1, 2]⟩ (fun _ => []) (fun _ => true)
      (fun _ => true) (PublishCall.pending ⟨7, "t", 3, "c", "a"⟩)
      (PublishCall.approved ⟨8, "u", 3, "d", "b"⟩) 1 (by decide) (by decide)
      (by decide) (by decide)).1⟩

/-- Claim C10: `broadcast` on a topic mutates at most that topic's registry
entry — every other topic key maps to exactly the same member set before and
after the call — and every connection the event is delivered to is a member
of the broadcast topic's own set at call time. -/
theorem claim10_broadcast_frame (m : ConnectionManager) (sendOk : Nat → Bool)
    (b k : Nat) (hk : k ≠ b) :
    lookupTopic ((m.broadcast sendOk b).state.active_connections) k
        = lookupTopic m.active_connections k
      ∧ ∀ c ∈ (m.broadcast sendOk b).delivered,
          c ∈ (lookupTopic m.active_connections b).getD [] := by
  cases h : lookupTopic m.active_connections b with
  | none =>
    rw [broadcast_of_absent h]
    exact ⟨rfl, fun c hc => absurd hc (List.not_mem_nil c)⟩
  | some members =>
    rw [broadcast_of_mem h]
    refine ⟨foldl_disconnect_frame _ m b k hk, ?_⟩
    intro c hc
    simp only [Option.getD_some]
    exact (List.mem_filter.mp hc).1

theorem claim10_witness :
    (2 : Nat) ≠ 1
      ∧ lookupTopic ((ConnectionManager.broadcast ⟨[(1, [10]), (2, [20])]⟩
            (fun _ => false) 1).state.active_connections) 2
          = lookupTopic
              (⟨[(1, [10]), (2, [20])]⟩ :
                ConnectionManager).active_connections 2 :=
  ⟨by decide,
    (claim10_broadcast_frame ⟨[(1, [10]), (2, [20])]⟩ (fun _ => false) 1 2
      (by decide)).1⟩
